import Mathlib

set_option linter.unusedVariables false

/- Verification development for the SCRAPPY repository (src/api/scrape.py and
src/main.py): a paginated HTML-table scraper exposed over HTTP.

Shallow embedding conventions:
* An HTML table cell is a tag (th or td) together with its text content; a row
  is the list of its td/th cells in document order (`find_all` on a `tr`), and
  a table is the list of its rows in document order (`find_all("tr")`).
* `get_text(strip=True)` on a cell is modelled as `trimChars` (strip leading
  and trailing whitespace) applied to its text.
* The HTTP client (`requests.get` wrapped by `fetch_html`) is modelled as an
  oracle `fetch : String → Option String` from URL to page body, `none` being
  any network failure, non-success status or timeout.
* `BeautifulSoup(html).select(selector)` is modelled as an oracle
  `select : String → String → List Table` giving the tables matching the
  selector in document order; selector semantics live in the external library
  and are not re-specified here.
* `pandas.DataFrame` is a list of column labels plus a list of rows of
  optional strings (`none` is NaN).  `pd.concat(results, ignore_index=True)`
  stacks rows directly when all frames share one column list, and otherwise
  aligns columns BY NAME over the first-occurrence union of the column lists,
  filling absent columns with NaN (`sort=False` default order).  The model
  resolves a duplicated column label by its first occurrence; pandas instead
  raises when reindexing is needed over duplicated labels, so theorems that
  depend on alignment carry a no-duplicate-labels hypothesis.
* The thread pool of `scrape_pages` yields per-page results in a
  nondeterministic completion order; the embedding takes that order as an
  explicit argument `order`, a permutation of the submitted page list.
* Python `int` page numbers are `Nat` (validated `ge=1` upstream). -/

inductive CellTag where
  | th : CellTag
  | td : CellTag
deriving DecidableEq, Repr

structure Cell where
  tag : CellTag
  text : String
deriving DecidableEq, Repr

abbrev Row := List Cell

abbrev Table := List Row

/- dataclass TableSpec (css_selector, table_index, header_row_strategy). -/
structure TableSpec where
  css_selector : String := "table"
  table_index : Nat := 0
  header_row_strategy : String := "auto"
deriving DecidableEq, Repr

structure DataFrame where
  columns : List String
  rows : List (List (Option String))
deriving DecidableEq, Repr

/- pd.DataFrame(): the frame with no columns and no rows. -/
def emptyDF : DataFrame := ⟨[], []⟩

/- df.empty: true when either axis has length zero. -/
def dfEmpty (df : DataFrame) : Bool := df.rows.isEmpty || df.columns.isEmpty

/- pd.DataFrame(data, columns=headers): every parsed cell is a concrete
string, never NaN.  (Callers supply rows whose length equals the header
count, which `parse_rows` guarantees.) -/
def mkDF (headers : List String) (data : List (List String)) : DataFrame :=
  ⟨headers, data.map (fun r => r.map some)⟩

/- template.replace("\x7bpage\x7d", str(page)): replace every non-overlapping
occurrence, scanning left to right.  The fixed six-character pattern is
inlined. -/
def replacePage (r : List Char) : List Char → List Char
  | c1 :: c2 :: c3 :: c4 :: c5 :: c6 :: rest =>
    if c1 = '{' ∧ c2 = 'p' ∧ c3 = 'a' ∧ c4 = 'g' ∧ c5 = 'e' ∧ c6 = '}' then
      r ++ replacePage r rest
    else
      c1 :: replacePage r (c2 :: c3 :: c4 :: c5 :: c6 :: rest)
  | c :: rest => c :: replacePage r rest
  | [] => []

/- "\x7bpage\x7d" in template. -/
def containsPage : List Char → Bool
  | c1 :: c2 :: c3 :: c4 :: c5 :: c6 :: rest =>
    if c1 = '{' ∧ c2 = 'p' ∧ c3 = 'a' ∧ c4 = 'g' ∧ c5 = 'e' ∧ c6 = '}' then true
    else containsPage (c2 :: c3 :: c4 :: c5 :: c6 :: rest)
  | _ :: rest => containsPage rest
  | [] => false

/- Attempt to match the tail of PAGE_REGEX = ([?&])page=(\d+) right here:
the literal "page=" followed by one or more digits (greedy).  Returns the
remainder of the input after the digit run on success.  Python's \d is
modelled as ASCII digits. -/
def matchPageAt : List Char → Option (List Char)
  | c1 :: c2 :: c3 :: c4 :: c5 :: rest =>
    if c1 = 'p' ∧ c2 = 'a' ∧ c3 = 'g' ∧ c4 = 'e' ∧ c5 = '=' then
      match rest with
      | d :: rest2 => if d.isDigit then some (rest2.dropWhile Char.isDigit) else none
      | [] => none
    else none
  | _ => none

/- PAGE_REGEX.sub(lambda m: m.group(1) + "page=" + str(page), template, count=1):
find the leftmost occurrence of ([?&])page=\d+ and replace it, keeping the
delimiter; `none` when the regex does not match anywhere. -/
def subPageParam (n : Nat) : List Char → Option (List Char)
  | [] => none
  | c :: rest =>
    if c = '?' ∨ c = '&' then
      match matchPageAt rest with
      | some rem =>
        some (c :: ('p' :: 'a' :: 'g' :: 'e' :: '=' :: (toString n).data) ++ rem)
      | none => (subPageParam n rest).map (fun l => c :: l)
    else (subPageParam n rest).map (fun l => c :: l)

/- PAGE_REGEX.search(template) succeeds. -/
def hasParam : List Char → Bool
  | [] => false
  | c :: rest =>
    if (c = '?' ∨ c = '&') ∧ (matchPageAt rest).isSome then true else hasParam rest

/- build_url_from_template. -/
def build_url_from_template (template : String) (page : Nat) : String :=
  if containsPage template.data then
    String.mk (replacePage (toString page).data template.data)
  else
    match subPageParam page template.data with
    | some l => String.mk l
    | none =>
      template ++ (if template.data.contains '?' then "&" else "?") ++ "page=" ++ toString page

/- th.get_text(strip=True) or "col_" + str(i+1): the positional fallback for
an empty header cell (`s` arrives already trimmed). -/
def headerName (i : Nat) (s : String) : String :=
  if s = "" then "col_" ++ toString (i + 1) else s

/- Strip leading and trailing whitespace from a character list (Python
str.strip(), the strip=True of get_text; whitespace is modelled by
Char.isWhitespace). -/
def trimChars (l : List Char) : List Char :=
  ((l.dropWhile Char.isWhitespace).reverse.dropWhile Char.isWhitespace).reverse

/- get_text(strip=True) of one cell. -/
def cellText (c : Cell) : String := String.mk (trimChars c.text.data)

/- infer_headers(table, strategy). -/
def infer_headers (table : Table) (strategy : String) : List String × List Row :=
  match table with
  | [] => ([], [])
  | r0 :: rest =>
    let ths := r0.filter (fun c => c.tag = CellTag.th)
    if (strategy = "auto" ∨ strategy = "th") ∧ ths ≠ [] then
      (ths.enum.map (fun p => headerName p.1 (cellText p.2)), rest)
    else
      let tds := r0.filter (fun c => c.tag = CellTag.td)
      if (strategy = "auto" ∨ strategy = "first_row") ∧ tds ≠ [] then
        (tds.enum.map (fun p => headerName p.1 (cellText p.2)), rest)
      else
        ((List.range (max r0.length 1)).map (fun i => "col_" ++ toString (i + 1)), table)

/- parse_rows(data_rows, ncols). -/
def parse_rows (data_rows : List Row) (ncols : Nat) : List (List String) :=
  data_rows.filterMap (fun r =>
    let vals := r.map cellText
    if vals = [] then none
    else if vals.length < ncols then some (vals ++ List.replicate (ncols - vals.length) "")
    else if ncols < vals.length then some (vals.take ncols)
    else some vals)

/- pick_table(html, spec). -/
def pick_table (select : String → String → List Table) (html : String)
    (spec : TableSpec) : Option Table :=
  let tables := select html spec.css_selector
  if tables = [] ∨ tables.length ≤ spec.table_index then none
  else tables[spec.table_index]?

/- scrape_one_page(url, spec). -/
def scrape_one_page (fetch : String → Option String)
    (select : String → String → List Table) (url : String) (spec : TableSpec) :
    Option DataFrame :=
  match fetch url with
  | none => none
  | some html =>
    match pick_table select html spec with
    | none => none
    | some table =>
      let hd := infer_headers table spec.header_row_strategy
      let data := parse_rows hd.2 hd.1.length
      if data = [] then none else some (mkDF hd.1 data)

/- The per-page frames kept by scrape_pages, in completion order: the body of
`for fut in as_completed(futures): ... if df is not None and not df.empty`. -/
def pageResults (fetch : String → Option String)
    (select : String → String → List Table) (template : String)
    (spec : TableSpec) (order : List Nat) : List DataFrame :=
  order.filterMap (fun p =>
    match scrape_one_page fetch select (build_url_from_template template p) spec with
    | none => none
    | some df => if dfEmpty df = true then none else some df)

/- Accumulate column labels by first occurrence (pandas outer-join column
union, sort=False). -/
def addCols (acc : List String) (cs : List String) : List String :=
  cs.foldl (fun a c => if c ∈ a then a else a ++ [c]) acc

/- Reindex one row from its source column labels to the target labels,
filling NaN for an absent label (first occurrence wins on duplicates). -/
def reindexRow (srcCols : List String) (row : List (Option String))
    (tgtCols : List String) : List (Option String) :=
  tgtCols.map (fun c => ((srcCols.zip row).lookup c).join)

/- The first-occurrence union of the frames' column labels. -/
def colsUnion (dfs : List DataFrame) : List String :=
  dfs.foldl (fun a x => addCols a x.columns) []

/- pd.concat(dfs, ignore_index=True). -/
def concatDF (dfs : List DataFrame) : DataFrame :=
  match dfs with
  | [] => emptyDF
  | d :: ds =>
    if ∀ x ∈ ds, x.columns = d.columns then
      ⟨d.columns, ((d :: ds).map DataFrame.rows).flatten⟩
    else
      ⟨colsUnion (d :: ds),
        (d :: ds).flatMap
          (fun x => x.rows.map (fun r => reindexRow x.columns r (colsUnion (d :: ds))))⟩

/- scrape_pages(template, pages, spec, concurrency): `pages` is the submitted
page list and `order` the completion order in which the pool yields them
(a permutation of `pages`); `concurrency` bounds in-flight fetches only and
does not affect the value. -/
def scrape_pages (fetch : String → Option String)
    (select : String → String → List Table) (template : String)
    (pages : List Nat) (spec : TableSpec) (concurrency : Nat)
    (order : List Nat) : DataFrame :=
  let results := pageResults fetch select template spec order
  if results = [] then emptyDF else concatDF results

/- ScrapeRequest after pydantic validation (field bounds are recorded by
`ScrapeRequest.Valid` below where a theorem needs them). -/
structure ScrapeRequest where
  template : String
  css_selector : String := "table"
  table_index : Nat := 0
  header_strategy : String := "auto"
  start_page : Nat := 1
  end_page : Nat := 1
  concurrency : Nat := 10
  max_pages_per_request : Nat := 100
  format : String := "csv"
deriving DecidableEq, Repr

/- The pydantic field constraints on a ScrapeRequest. -/
def ScrapeRequest.Valid (req : ScrapeRequest) : Prop :=
  (req.header_strategy = "auto" ∨ req.header_strategy = "th" ∨
      req.header_strategy = "first_row") ∧
    1 ≤ req.start_page ∧ 1 ≤ req.end_page ∧
    1 ≤ req.concurrency ∧ req.concurrency ≤ 32 ∧
    1 ≤ req.max_pages_per_request ∧ req.max_pages_per_request ≤ 100 ∧
    (req.format = "csv" ∨ req.format = "json")

inductive ScrapeResponse where
  | httpError (status : Nat) (detail : String)
  | emptyOk (rows : Nat) (message : String)
  | jsonOk (rows : Nat) (data : List (List (String × Option String)))
  | csvOk (body : String)
deriving DecidableEq, Repr

def statusOf : ScrapeResponse → Nat
  | .httpError s _ => s
  | _ => 200

/- df.to_dict(orient="records"): one label-to-value record per row, labels in
column order. -/
def dfRecords (df : DataFrame) : List (List (String × Option String)) :=
  df.rows.map (fun r => df.columns.zip r)

/- Minimal-quoting CSV field, as pandas to_csv writes it (NaN prints empty,
handled at the call site). -/
def csvField (s : String) : String :=
  if s.data.contains ',' || s.data.contains '"' || s.data.contains '\n' ||
      s.data.contains '\r' then
    "\"" ++ String.mk (s.data.flatMap (fun c => if c = '"' then ['"', '"'] else [c])) ++ "\""
  else s

/- df.to_csv(index=False). -/
def dfToCsv (df : DataFrame) : String :=
  String.intercalate "\n"
      ((String.intercalate "," (df.columns.map csvField)) ::
        df.rows.map (fun r =>
          String.intercalate "," (r.map (fun v => csvField (v.getD ""))))) ++ "\n"

/- The handler's response once validation has passed, from the aggregate
frame: the explicit empty success, the json record payload or the csv
attachment. -/
def respond (req : ScrapeRequest) (df : DataFrame) : ScrapeResponse :=
  if dfEmpty df = true then
    .emptyOk 0 "No data found. Tweak selector/table index/header strategy."
  else if req.format = "json" then .jsonOk df.rows.length (dfRecords df)
  else .csvOk (dfToCsv df)

/- POST /api/scrape (the handler `scrape`), with the fetch/select oracles and
the pool completion order passed through to scrape_pages. -/
def scrape (fetch : String → Option String)
    (select : String → String → List Table) (order : List Nat)
    (req : ScrapeRequest) : ScrapeResponse :=
  if req.end_page < req.start_page then
    .httpError 400 "end_page must be >= start_page"
  else
    let page_count := req.end_page - req.start_page + 1
    if req.max_pages_per_request < page_count then
      .httpError 400 ("Too many pages (max " ++ toString req.max_pages_per_request ++ ").")
    else
      let spec : TableSpec := ⟨req.css_selector, req.table_index, req.header_strategy⟩
      let pages := List.range' req.start_page page_count
      let df := scrape_pages fetch select req.template pages spec req.concurrency order
      respond req df

/- A row keyed by its column labels, for order-insensitive comparison: the
multiset of (label, value) pairs over the row's non-NaN cells. -/
def rowPairs (cols : List String) (row : List (Option String)) :
    Multiset (String × String) :=
  ↑((cols.zip row).filterMap (fun p => p.2.map (fun v => (p.1, v))))

/- ------------------------------------------------------------------------
Helper lemmas. -/

lemma respond_ne_httpError (req : ScrapeRequest) (df : DataFrame) (s : Nat) (d : String) :
    respond req df ≠ ScrapeResponse.httpError s d := by
  unfold respond
  split_ifs <;> simp

lemma parse_rows_nil (n : Nat) : parse_rows [] n = [] := rfl

lemma parse_rows_cons_of_nil (r : Row) (rest : List Row) (n : Nat) (h : r = []) :
    parse_rows (r :: rest) n = parse_rows rest n := by
  subst h
  simp [parse_rows]

lemma parse_rows_cons_pad (r : Row) (rest : List Row) (n : Nat) (hne : r ≠ [])
    (hlt : (r.map cellText).length < n) :
    parse_rows (r :: rest) n =
      (r.map cellText ++ List.replicate (n - (r.map cellText).length) "") ::
        parse_rows rest n := by
  have hvals : r.map cellText ≠ [] := by simpa using hne
  simp only [parse_rows, List.filterMap_cons]
  rw [if_neg hvals, if_pos hlt]

lemma parse_rows_cons_trunc (r : Row) (rest : List Row) (n : Nat)
    (hgt : n < (r.map cellText).length) :
    parse_rows (r :: rest) n = ((r.map cellText).take n) :: parse_rows rest n := by
  have hvals : r.map cellText ≠ [] := by
    intro h
    rw [h] at hgt
    simp at hgt
  simp only [parse_rows, List.filterMap_cons]
  rw [if_neg hvals, if_neg (by omega), if_pos hgt]

lemma parse_rows_cons_exact (r : Row) (rest : List Row) (n : Nat) (hne : r ≠ [])
    (heq : (r.map cellText).length = n) :
    parse_rows (r :: rest) n = (r.map cellText) :: parse_rows rest n := by
  have hvals : r.map cellText ≠ [] := by simpa using hne
  simp only [parse_rows, List.filterMap_cons]
  rw [if_neg hvals, if_neg (by omega), if_neg (by omega)]

lemma parse_rows_length (rows : List Row) (n : Nat) :
    ∀ out ∈ parse_rows rows n, out.length = n := by
  induction rows with
  | nil => simp [parse_rows]
  | cons r rest ih =>
    intro out hout
    by_cases h0 : r = []
    · rw [parse_rows_cons_of_nil r rest n h0] at hout
      exact ih out hout
    · rcases Nat.lt_trichotomy (r.map cellText).length n with hlt | heq | hgt
      · rw [parse_rows_cons_pad r rest n h0 hlt] at hout
        rcases List.mem_cons.mp hout with hh | ht
        · subst hh
          simp only [List.length_append, List.length_replicate, List.length_map] at hlt ⊢
          omega
        · exact ih out ht
      · rw [parse_rows_cons_exact r rest n h0 heq] at hout
        rcases List.mem_cons.mp hout with hh | ht
        · subst hh
          exact heq
        · exact ih out ht
      · rw [parse_rows_cons_trunc r rest n hgt] at hout
        rcases List.mem_cons.mp hout with hh | ht
        · subst hh
          simp only [List.length_take, List.length_map] at hgt ⊢
          omega
        · exact ih out ht

lemma scrape_one_page_widths (fetch : String → Option String)
    (select : String → String → List Table) (url : String) (spec : TableSpec)
    (df : DataFrame) (h : scrape_one_page fetch select url spec = some df) :
    ∀ r ∈ df.rows, r.length = df.columns.length := by
  rcases hf : fetch url with _ | html
  · simp [scrape_one_page, hf] at h
  · rcases ht : pick_table select html spec with _ | table
    · simp [scrape_one_page, hf, ht] at h
    · simp only [scrape_one_page, hf, ht] at h
      split_ifs at h with hd
      simp only [Option.some.injEq] at h
      subst h
      intro r hr
      simp only [mkDF, List.mem_map] at hr
      rcases hr with ⟨src, hsrc, rfl⟩
      have := parse_rows_length (infer_headers table spec.header_row_strategy).2
        (infer_headers table spec.header_row_strategy).1.length src hsrc
      simp [mkDF, this]

lemma filter_tag_ne_nil (r0 : Row) (t : CellTag) :
    r0.filter (fun c => c.tag = t) ≠ [] ↔ ∃ c ∈ r0, c.tag = t := by
  simp [ne_eq, List.filter_eq_nil_iff]

/- ------------------------------------------------------------------------
Claim theorems. -/

/-- C5: row normalization yields only rows of exactly the header count: a row
with zero cells is discarded, a shorter row is padded with empty strings, a
longer row is truncated to its first `ncols` cells, and consequently every
row of a Page Result is as wide as its column list. -/
theorem c5_row_normalization (data_rows : List Row) (ncols : Nat) :
    (∀ out ∈ parse_rows data_rows ncols, out.length = ncols)
    ∧ (∀ r rest, r = [] → parse_rows (r :: rest) ncols = parse_rows rest ncols)
    ∧ (∀ (r : Row) rest, r ≠ [] → (r.map cellText).length < ncols →
        parse_rows (r :: rest) ncols =
          (r.map cellText ++ List.replicate (ncols - (r.map cellText).length) "") ::
            parse_rows rest ncols)
    ∧ (∀ (r : Row) rest, ncols < (r.map cellText).length →
        parse_rows (r :: rest) ncols = ((r.map cellText).take ncols) :: parse_rows rest ncols)
    ∧ (∀ fetch select url spec df, scrape_one_page fetch select url spec = some df →
        ∀ out ∈ df.rows, out.length = df.columns.length) :=
  ⟨parse_rows_length data_rows ncols,
    fun r rest h => parse_rows_cons_of_nil r rest ncols h,
    fun r rest h1 h2 => parse_rows_cons_pad r rest ncols h1 h2,
    fun r rest h => parse_rows_cons_trunc r rest ncols h,
    fun fetch select url spec df h => scrape_one_page_widths fetch select url spec df h⟩

/-- C5 witness: with header count 3 a two-cell row is padded with one empty
string (cell text trimmed), and a zero-cell row contributes nothing. -/
theorem c5_row_normalization_witness :
    parse_rows [[Cell.mk CellTag.td " v1 ", Cell.mk CellTag.td "v2"], []] 3
      = [["v1", "v2", ""]] := by
  have h := (c5_row_normalization [] 3).2.2.1
    [Cell.mk CellTag.td " v1 ", Cell.mk CellTag.td "v2"] [[]]
    (by decide) (by decide)
  exact h.trans (by decide)

/-- C3 counterexample: on a table with zero rows (`auto` strategy, and the
same for every strategy) the code returns empty headers and no data rows,
whereas the claimed fallback demands synthesized headers col_1..col_n with
n at least 1, i.e. the nonempty list ["col_1"]. -/
theorem c3_counterexample :
    infer_headers ([] : Table) "auto" = ([], [])
    ∧ (([] : List String), ([] : List Row)) ≠ (["col_1"], ([] : List Row)) := by
  constructor
  · rfl
  · decide

/-- C3 (amended): header inference follows the claimed strategy rules for
every table that has at least one row — th cells of the first row win under
`th`/`auto` (trimmed text, empty cells replaced positionally), td cells win
under `first_row` (and `auto` without th cells), and otherwise col_1..col_n
headers are synthesized (n = first-row cell count, minimum 1) with ALL rows
data; a table with zero rows instead yields empty headers and no data rows
(the fallback is not applied there). -/
theorem c3_header_inference (table : Table) (strategy : String) :
    (table = [] → infer_headers table strategy = ([], []))
    ∧ (∀ r0 rest, table = r0 :: rest →
        (((strategy = "auto" ∨ strategy = "th") ∧ ∃ c ∈ r0, c.tag = CellTag.th) →
            infer_headers table strategy =
              ((r0.filter (fun c => c.tag = CellTag.th)).enum.map
                  (fun p => headerName p.1 (cellText p.2)), rest))
        ∧ (¬((strategy = "auto" ∨ strategy = "th") ∧ ∃ c ∈ r0, c.tag = CellTag.th) →
            ((strategy = "auto" ∨ strategy = "first_row") ∧ ∃ c ∈ r0, c.tag = CellTag.td) →
            infer_headers table strategy =
              ((r0.filter (fun c => c.tag = CellTag.td)).enum.map
                  (fun p => headerName p.1 (cellText p.2)), rest))
        ∧ (¬((strategy = "auto" ∨ strategy = "th") ∧ ∃ c ∈ r0, c.tag = CellTag.th) →
            ¬((strategy = "auto" ∨ strategy = "first_row") ∧ ∃ c ∈ r0, c.tag = CellTag.td) →
            infer_headers table strategy =
              ((List.range (max r0.length 1)).map (fun i => "col_" ++ toString (i + 1)),
                r0 :: rest))) := by
  constructor
  · rintro rfl
    rfl
  · rintro r0 rest rfl
    refine ⟨?_, ?_, ?_⟩
    · rintro ⟨hs, hex⟩
      have hne : r0.filter (fun c => c.tag = CellTag.th) ≠ [] :=
        (filter_tag_ne_nil r0 CellTag.th).mpr hex
      simp only [infer_headers]
      rw [if_pos ⟨hs, hne⟩]
    · intro h1 h2
      rcases h2 with ⟨hs, hex⟩
      have hne : r0.filter (fun c => c.tag = CellTag.td) ≠ [] :=
        (filter_tag_ne_nil r0 CellTag.td).mpr hex
      have h1' : ¬((strategy = "auto" ∨ strategy = "th") ∧
          r0.filter (fun c => c.tag = CellTag.th) ≠ []) := by
        intro hcon
        exact h1 ⟨hcon.1, (filter_tag_ne_nil r0 CellTag.th).mp hcon.2⟩
      simp only [infer_headers]
      rw [if_neg h1', if_pos ⟨hs, hne⟩]
    · intro h1 h2
      have h1' : ¬((strategy = "auto" ∨ strategy = "th") ∧
          r0.filter (fun c => c.tag = CellTag.th) ≠ []) := by
        intro hcon
        exact h1 ⟨hcon.1, (filter_tag_ne_nil r0 CellTag.th).mp hcon.2⟩
      have h2' : ¬((strategy = "auto" ∨ strategy = "first_row") ∧
          r0.filter (fun c => c.tag = CellTag.td) ≠ []) := by
        intro hcon
        exact h2 ⟨hcon.1, (filter_tag_ne_nil r0 CellTag.td).mp hcon.2⟩
      simp only [infer_headers]
      rw [if_neg h1', if_neg h2']

/-- C3 witness: concrete header inference — a first row of th cells wins
under `auto` (with the positional fallback for its empty cell), and for a
first row of td cells with strategy `th` the synthesized-columns fallback
applies with all rows kept as data. -/
theorem c3_header_inference_witness :
    infer_headers [[Cell.mk CellTag.th " a ", Cell.mk CellTag.th ""],
        [Cell.mk CellTag.td "1", Cell.mk CellTag.td "2"]] "auto"
      = (["a", "col_2"], [[Cell.mk CellTag.td "1", Cell.mk CellTag.td "2"]])
    ∧ infer_headers [[Cell.mk CellTag.td "x"]] "th"
      = (["col_1"], [[Cell.mk CellTag.td "x"]]) := by
  constructor
  · have h := ((c3_header_inference
      [[Cell.mk CellTag.th " a ", Cell.mk CellTag.th ""],
        [Cell.mk CellTag.td "1", Cell.mk CellTag.td "2"]] "auto").2
      [Cell.mk CellTag.th " a ", Cell.mk CellTag.th ""]
      [[Cell.mk CellTag.td "1", Cell.mk CellTag.td "2"]] rfl).1
      ⟨Or.inl rfl, Cell.mk CellTag.th " a ", by decide⟩
    exact h.trans (by decide)
  · have h := (((c3_header_inference [[Cell.mk CellTag.td "x"]] "th").2
      [Cell.mk CellTag.td "x"] [] rfl).2.2 (by decide) (by decide))
    exact h.trans (by decide)

/-- C10: a page whose table is located but whose normalized data-row list is
empty is reported as absence by scrape_one_page, exactly like a page whose
fetch failed — the aggregator cannot tell the two apart. -/
theorem c10_empty_table_is_absence (fetch : String → Option String)
    (select : String → String → List Table) (url : String) (spec : TableSpec)
    (html : String) (table : Table)
    (hfetch : fetch url = some html)
    (htable : pick_table select html spec = some table)
    (hempty : parse_rows (infer_headers table spec.header_row_strategy).2
        (infer_headers table spec.header_row_strategy).1.length = []) :
    scrape_one_page fetch select url spec = none
    ∧ ∀ url2, fetch url2 = none → scrape_one_page fetch select url2 spec = none := by
  constructor
  · simp [scrape_one_page, hfetch, htable, hempty]
  · intro url2 h2
    simp [scrape_one_page, h2]

def exFetch10 : String → Option String := fun u => if u = "u" then some "h" else none

def exSelect10 : String → String → List Table := fun _ _ => [[[Cell.mk CellTag.th "h"]]]

/-- C10 witness: a header-only table (one th row, no data rows) makes
scrape_one_page return absence, and a URL whose fetch fails returns the
same absence. -/
theorem c10_empty_table_is_absence_witness :
    scrape_one_page exFetch10 exSelect10 "u" {} = none
    ∧ scrape_one_page exFetch10 exSelect10 "other" {} = none := by
  have h := c10_empty_table_is_absence exFetch10 exSelect10 "u" {} "h"
    [[Cell.mk CellTag.th "h"]] (by decide) (by decide) (by decide)
  exact ⟨h.1, h.2 "other" (by decide)⟩

lemma pageResults_eq_nil (fetch : String → Option String)
    (select : String → String → List Table) (template : String) (spec : TableSpec)
    (order : List Nat)
    (h : ∀ p ∈ order,
      scrape_one_page fetch select (build_url_from_template template p) spec = none) :
    pageResults fetch select template spec order = [] := by
  unfold pageResults
  rw [List.filterMap_eq_nil_iff]
  intro p hp
  rw [h p hp]

/-- C7: a valid request whose every page contributes nothing (fetch failed,
table absent, or no data rows anywhere) is answered with the 200 success
response carrying row count zero and the guidance message — never an
error. -/
theorem c7_empty_aggregate_success (fetch : String → Option String)
    (select : String → String → List Table) (order : List Nat)
    (req : ScrapeRequest)
    (h1 : ¬ req.end_page < req.start_page)
    (h2 : ¬ req.max_pages_per_request < req.end_page - req.start_page + 1)
    (hfail : ∀ p ∈ order, scrape_one_page fetch select
        (build_url_from_template req.template p)
        ⟨req.css_selector, req.table_index, req.header_strategy⟩ = none) :
    scrape fetch select order req =
      ScrapeResponse.emptyOk 0 "No data found. Tweak selector/table index/header strategy."
    ∧ statusOf (scrape fetch select order req) = 200 := by
  have hres := pageResults_eq_nil fetch select req.template
    ⟨req.css_selector, req.table_index, req.header_strategy⟩ order hfail
  have hagg : scrape_pages fetch select req.template
      (List.range' req.start_page (req.end_page - req.start_page + 1))
      ⟨req.css_selector, req.table_index, req.header_strategy⟩ req.concurrency order
      = emptyDF := by
    simp [scrape_pages, hres]
  have hmain : scrape fetch select order req =
      ScrapeResponse.emptyOk 0 "No data found. Tweak selector/table index/header strategy." := by
    simp only [scrape]
    rw [if_neg h1, if_neg h2, hagg]
    rfl
  exact ⟨hmain, by rw [hmain]; rfl⟩

/-- C7 witness: a request over pages 1..2 against a dead site (every fetch
fails) yields the 200 empty-success response. -/
theorem c7_empty_aggregate_success_witness :
    scrape (fun _ => none) (fun _ _ => []) [1, 2]
        { template := "http://x", end_page := 2 } =
      ScrapeResponse.emptyOk 0 "No data found. Tweak selector/table index/header strategy." := by
  exact (c7_empty_aggregate_success (fun _ => none) (fun _ _ => []) [1, 2]
    { template := "http://x", end_page := 2 }
    (by decide) (by decide) (by intro p hp; rfl)).1

/-- C6: the handler answers a 4xx client error exactly when end_page lies
before start_page or the requested page count exceeds
max_pages_per_request, with no page processing attempted; otherwise it
feeds the page list start_page..end_page to the aggregator and serializes
its result. -/
theorem c6_validation (fetch : String → Option String)
    (select : String → String → List Table) (order : List Nat)
    (req : ScrapeRequest) :
    ((∃ s d, scrape fetch select order req = ScrapeResponse.httpError s d ∧
          400 ≤ s ∧ s < 500) ↔
        (req.end_page < req.start_page ∨
          req.max_pages_per_request < req.end_page - req.start_page + 1))
    ∧ ((¬ req.end_page < req.start_page ∧
          ¬ req.max_pages_per_request < req.end_page - req.start_page + 1) →
        scrape fetch select order req =
          respond req (scrape_pages fetch select req.template
            (List.range' req.start_page (req.end_page - req.start_page + 1))
            ⟨req.css_selector, req.table_index, req.header_strategy⟩
            req.concurrency order)) := by
  by_cases hA : req.end_page < req.start_page
  · have heq : scrape fetch select order req =
        ScrapeResponse.httpError 400 "end_page must be >= start_page" := by
      simp [scrape, hA]
    refine ⟨⟨fun _ => Or.inl hA, fun _ => ⟨400, _, heq, by omega, by omega⟩⟩, ?_⟩
    rintro ⟨h1, -⟩
    exact absurd hA h1
  · by_cases hB : req.max_pages_per_request < req.end_page - req.start_page + 1
    · have heq : scrape fetch select order req = ScrapeResponse.httpError 400
          ("Too many pages (max " ++ toString req.max_pages_per_request ++ ").") := by
        simp only [scrape]
        rw [if_neg hA, if_pos hB]
      refine ⟨⟨fun _ => Or.inr hB, fun _ => ⟨400, _, heq, by omega, by omega⟩⟩, ?_⟩
      rintro ⟨-, h2⟩
      exact absurd hB h2
    · have heq : scrape fetch select order req =
          respond req (scrape_pages fetch select req.template
            (List.range' req.start_page (req.end_page - req.start_page + 1))
            ⟨req.css_selector, req.table_index, req.header_strategy⟩
            req.concurrency order) := by
        simp only [scrape]
        rw [if_neg hA, if_neg hB]
      refine ⟨⟨?_, ?_⟩, fun _ => heq⟩
      · rintro ⟨s, d, hresp, -, -⟩
        rw [heq] at hresp
        exact absurd hresp (respond_ne_httpError _ _ _ _)
      · rintro (h | h)
        · exact absurd h hA
        · exact absurd h hB

/-- C6 witness: start_page=5, end_page=3 is rejected with a 400; a valid
one-page request is not rejected and is answered from the aggregate of page
list [1] (here: the empty aggregate of a dead site). -/
theorem c6_validation_witness :
    scrape (fun _ => none) (fun _ _ => []) []
        { template := "http://x", start_page := 5, end_page := 3 } =
      ScrapeResponse.httpError 400 "end_page must be >= start_page"
    ∧ scrape (fun _ => none) (fun _ _ => []) [1] { template := "http://x" } =
        respond { template := "http://x" }
          (scrape_pages (fun _ => none) (fun _ _ => []) "http://x" (List.range' 1 1)
            ⟨"table", 0, "auto"⟩ 10 [1]) := by
  constructor
  · decide
  · exact (c6_validation (fun _ => none) (fun _ _ => []) [1]
      { template := "http://x" }).2 ⟨by decide, by decide⟩

def cxFetch : String → Option String := fun u => some u

def cxSelect : String → String → List Table := fun html _ =>
  if html = "t?page=1" then [[[Cell.mk CellTag.th "a"], [Cell.mk CellTag.td "1"]]]
  else [[[Cell.mk CellTag.th "b"], [Cell.mk CellTag.td "2"]]]

def cxSpec : TableSpec := {}

/-- C1 counterexample: two successful pages whose inferred header names
differ (page 1 column "a", page 2 column "b", both single-column).  The
claim says the aggregate's column set is taken from the first successful
page (["a"]) with the other page matched positionally; pd.concat instead
aligns BY NAME, yielding columns ["a", "b"] with NaN filling, so page 2's
row does not appear under the first page's column label. -/
theorem c1_counterexample :
    pageResults cxFetch cxSelect "t" cxSpec [1, 2]
      = [⟨["a"], [[some "1"]]⟩, ⟨["b"], [[some "2"]]⟩]
    ∧ (scrape_pages cxFetch cxSelect "t" [1, 2] cxSpec 10 [1, 2]).columns = ["a", "b"]
    ∧ (scrape_pages cxFetch cxSelect "t" [1, 2] cxSpec 10 [1, 2]).columns ≠ ["a"]
    ∧ (scrape_pages cxFetch cxSelect "t" [1, 2] cxSpec 10 [1, 2]).rows
        = [[some "1", none], [none, some "2"]] := by
  refine ⟨by decide, by decide, by decide, by decide⟩

/-- C1 (amended): only when every successful Page Result carries the same
column list as the first successful page is the Aggregate Result their
row-wise union under the first page's column labels; in general pd.concat
aligns columns by name (first-occurrence union), not positionally. -/
theorem c1_aggregate_columns (fetch : String → Option String)
    (select : String → String → List Table) (template : String)
    (pages : List Nat) (spec : TableSpec) (concurrency : Nat) (order : List Nat)
    (d : DataFrame) (ds : List DataFrame)
    (hres : pageResults fetch select template spec order = d :: ds)
    (hcols : ∀ x ∈ ds, x.columns = d.columns) :
    (scrape_pages fetch select template pages spec concurrency order).columns = d.columns
    ∧ (scrape_pages fetch select template pages spec concurrency order).rows =
        ((d :: ds).map DataFrame.rows).flatten := by
  have hne : pageResults fetch select template spec order ≠ [] := by
    rw [hres]
    simp
  have hsp : scrape_pages fetch select template pages spec concurrency order =
      concatDF (d :: ds) := by
    simp only [scrape_pages]
    rw [if_neg hne, hres]
  rw [hsp]
  simp only [concatDF]
  rw [if_pos hcols]
  exact ⟨rfl, rfl⟩

def cwSelect : String → String → List Table := fun html _ =>
  if html = "t?page=1" then [[[Cell.mk CellTag.th "a"], [Cell.mk CellTag.td "1"]]]
  else [[[Cell.mk CellTag.th "a"], [Cell.mk CellTag.td "2"]]]

/-- C1 witness: two successful pages sharing the single column "a" — the
aggregate keeps the first page's columns and stacks the rows. -/
theorem c1_aggregate_columns_witness :
    pageResults cxFetch cwSelect "t" cxSpec [1, 2]
      = [⟨["a"], [[some "1"]]⟩, ⟨["a"], [[some "2"]]⟩]
    ∧ (scrape_pages cxFetch cwSelect "t" [1, 2] cxSpec 10 [1, 2]).columns = ["a"]
    ∧ (scrape_pages cxFetch cwSelect "t" [1, 2] cxSpec 10 [1, 2]).rows
        = [[some "1"], [some "2"]] := by
  have h := c1_aggregate_columns cxFetch cwSelect "t" [1, 2] cxSpec 10 [1, 2]
    ⟨["a"], [[some "1"]]⟩ [⟨["a"], [[some "2"]]⟩] (by decide) (by decide)
  exact ⟨by decide, h.1, h.2.trans (by decide)⟩

lemma dropWhile_append_head (p : Char → Bool) (u v : List Char)
    (hv : ∀ x, v.head? = some x → p x = false) :
    (u ++ v).dropWhile p = u.dropWhile p ++ v := by
  induction u with
  | nil =>
    cases v with
    | nil => rfl
    | cons x v' =>
      simp only [List.nil_append, List.dropWhile_nil]
      rw [List.dropWhile_cons, hv x rfl]
      simp
  | cons c u' ih =>
    rw [List.cons_append, List.dropWhile_cons, List.dropWhile_cons]
    by_cases hc : p c
    · simp [hc, ih]
    · simp [hc]

lemma matchPageAt_append (a T' : List Char) (c : Char)
    (hp : c ≠ 'p') (ha : c ≠ 'a') (hg : c ≠ 'g') (he : c ≠ 'e') (hq : c ≠ '=')
    (hd : c.isDigit = false) :
    matchPageAt (a ++ c :: T') = (matchPageAt a).map (fun l => l ++ c :: T') := by
  rcases a with _ | ⟨x1, _ | ⟨x2, _ | ⟨x3, _ | ⟨x4, _ | ⟨x5, a5⟩⟩⟩⟩⟩
  · rcases T' with _ | ⟨t1, _ | ⟨t2, _ | ⟨t3, _ | ⟨t4, T4⟩⟩⟩⟩ <;> simp [matchPageAt, hp]
  · rcases T' with _ | ⟨t1, _ | ⟨t2, _ | ⟨t3, T3⟩⟩⟩ <;> simp [matchPageAt, ha]
  · rcases T' with _ | ⟨t1, _ | ⟨t2, T2⟩⟩ <;> simp [matchPageAt, hg]
  · rcases T' with _ | ⟨t1, T1⟩ <;> simp [matchPageAt, he]
  · simp [matchPageAt, hq]
  · simp only [List.cons_append, matchPageAt]
    by_cases hcond : x1 = 'p' ∧ x2 = 'a' ∧ x3 = 'g' ∧ x4 = 'e' ∧ x5 = '='
    · rw [if_pos hcond, if_pos hcond]
      rcases a5 with _ | ⟨d, a6⟩
      · simp [hd]
      · simp only [List.cons_append]
        by_cases hdd : d.isDigit
        · rw [if_pos hdd, if_pos hdd,
            dropWhile_append_head Char.isDigit a6 (c :: T') (by intro x hx; cases hx; exact hd)]
          rfl
        · rw [if_neg hdd, if_neg hdd]
          rfl
    · rw [if_neg hcond, if_neg hcond]
      rfl

lemma hasParam_cons_false (c : Char) (rest : List Char)
    (h : hasParam (c :: rest) = false) :
    hasParam rest = false ∧ ¬((c = '?' ∨ c = '&') ∧ (matchPageAt rest).isSome = true) := by
  simp only [hasParam] at h
  split_ifs at h with hc
  exact ⟨h, hc⟩

lemma subPageParam_of_match (n : Nat) (c : Char) (rest rem : List Char)
    (hc : c = '?' ∨ c = '&') (hm : matchPageAt rest = some rem) :
    subPageParam n (c :: rest)
      = some (c :: ('p' :: 'a' :: 'g' :: 'e' :: '=' :: (toString n).data) ++ rem) := by
  simp only [subPageParam]
  rw [if_pos hc, hm]

lemma subPageParam_cons_skip (n : Nat) (c : Char) (rest : List Char)
    (hno : ¬((c = '?' ∨ c = '&') ∧ (matchPageAt rest).isSome = true)) :
    subPageParam n (c :: rest) = (subPageParam n rest).map (fun l => c :: l) := by
  simp only [subPageParam]
  by_cases hc : c = '?' ∨ c = '&'
  · rw [if_pos hc]
    rcases hm : matchPageAt rest with _ | rem
    · rfl
    · exact absurd ⟨hc, by simp [hm]⟩ hno
  · rw [if_neg hc]

lemma subPageParam_isSome (n : Nat) (s : List Char) :
    (subPageParam n s).isSome = hasParam s := by
  induction s with
  | nil => rfl
  | cons c rest ih =>
    by_cases hcond : (c = '?' ∨ c = '&') ∧ (matchPageAt rest).isSome = true
    · rcases hm : matchPageAt rest with _ | rem
      · rw [hm] at hcond
        simp at hcond
      · rw [subPageParam_of_match n c rest rem hcond.1 hm]
        simp only [hasParam]
        rw [if_pos hcond]
        rfl
    · rw [subPageParam_cons_skip n c rest hcond]
      simp only [hasParam]
      rw [if_neg hcond]
      simp [ih]

lemma subPageParam_append (n : Nat) (a : List Char) (c d : Char) (ds b : List Char)
    (hc : c = '?' ∨ c = '&') (hd : d.isDigit = true) (hds : ∀ x ∈ ds, x.isDigit = true)
    (hb : ∀ x, b.head? = some x → x.isDigit = false)
    (ha : hasParam a = false) :
    subPageParam n (a ++ c :: 'p' :: 'a' :: 'g' :: 'e' :: '=' :: d :: (ds ++ b))
      = some (a ++ c :: 'p' :: 'a' :: 'g' :: 'e' :: '=' :: ((toString n).data ++ b)) := by
  induction a with
  | nil =>
    have hm : matchPageAt ('p' :: 'a' :: 'g' :: 'e' :: '=' :: d :: (ds ++ b)) = some b := by
      simp only [matchPageAt]
      rw [if_pos ⟨trivial, trivial, trivial, trivial, trivial⟩, if_pos hd,
        dropWhile_append_head Char.isDigit ds b hb,
        List.dropWhile_eq_nil_iff.mpr (by intro x hx; exact hds x hx)]
      rfl
    rw [List.nil_append, subPageParam_of_match n c _ b hc hm]
    simp
  | cons x a' ih =>
    have hstep := hasParam_cons_false x _ ha
    have hno : ¬((x = '?' ∨ x = '&') ∧
        (matchPageAt (a' ++ c :: 'p' :: 'a' :: 'g' :: 'e' :: '=' :: d :: (ds ++ b))).isSome
          = true) := by
      rintro ⟨hx, hsome⟩
      have hfacts : c ≠ 'p' ∧ c ≠ 'a' ∧ c ≠ 'g' ∧ c ≠ 'e' ∧ c ≠ '=' ∧ c.isDigit = false := by
        rcases hc with rfl | rfl <;> refine ⟨by decide, by decide, by decide, by decide,
          by decide, by decide⟩
      rw [matchPageAt_append a' _ c hfacts.1 hfacts.2.1 hfacts.2.2.1 hfacts.2.2.2.1
        hfacts.2.2.2.2.1 hfacts.2.2.2.2.2] at hsome
      rw [Option.isSome_map'] at hsome
      exact hstep.2 ⟨hx, hsome⟩
    rw [List.cons_append, subPageParam_cons_skip n x _ hno, ih hstep.1]
    rfl

lemma containsPage_tail (x : Char) (l : List Char) (h : containsPage (x :: l) = false) :
    containsPage l = false := by
  rcases l with _ | ⟨y1, _ | ⟨y2, _ | ⟨y3, _ | ⟨y4, _ | ⟨y5, l5⟩⟩⟩⟩⟩
  · rfl
  · rfl
  · rfl
  · rfl
  · rfl
  · simp only [containsPage] at h
    split_ifs at h with hcond
    exact h

lemma containsPage_cons_of (x : Char) (l : List Char) (h : containsPage l = true) :
    containsPage (x :: l) = true := by
  rcases l with _ | ⟨y1, _ | ⟨y2, _ | ⟨y3, _ | ⟨y4, _ | ⟨y5, l5⟩⟩⟩⟩⟩
  · simp [containsPage] at h
  · simp [containsPage] at h
  · simp [containsPage] at h
  · simp [containsPage] at h
  · simp [containsPage] at h
  · simp only [containsPage]
    split_ifs with hcond
    · rfl
    · exact h

lemma containsPage_append_pat (a b : List Char) :
    containsPage (a ++ '{' :: 'p' :: 'a' :: 'g' :: 'e' :: '}' :: b) = true := by
  induction a with
  | nil => rfl
  | cons x a' ih => exact containsPage_cons_of x _ ih

lemma replacePage_cons_ne (r : List Char) (x : Char) (l : List Char) (hx : x ≠ '{') :
    replacePage r (x :: l) = x :: replacePage r l := by
  rcases l with _ | ⟨y1, _ | ⟨y2, _ | ⟨y3, _ | ⟨y4, _ | ⟨y5, l5⟩⟩⟩⟩⟩
  · rfl
  · rfl
  · rfl
  · rfl
  · rfl
  · simp only [replacePage]
    rw [if_neg (fun hcon => hx hcon.1)]

lemma replacePage_pat (r b : List Char) :
    replacePage r ('{' :: 'p' :: 'a' :: 'g' :: 'e' :: '}' :: b) = r ++ replacePage r b := by
  simp only [replacePage]
  rw [if_pos ⟨trivial, trivial, trivial, trivial, trivial, trivial⟩]

lemma replacePage_cons6 (r : List Char) (c1 c2 c3 c4 c5 c6 : Char) (rest : List Char) :
    replacePage r (c1 :: c2 :: c3 :: c4 :: c5 :: c6 :: rest)
      = if c1 = '{' ∧ c2 = 'p' ∧ c3 = 'a' ∧ c4 = 'g' ∧ c5 = 'e' ∧ c6 = '}' then
          r ++ replacePage r rest
        else c1 :: replacePage r (c2 :: c3 :: c4 :: c5 :: c6 :: rest) := rfl

lemma replacePage_append_pat (r a b : List Char) (ha : containsPage a = false) :
    replacePage r (a ++ '{' :: 'p' :: 'a' :: 'g' :: 'e' :: '}' :: b)
      = a ++ (r ++ replacePage r b) := by
  induction a with
  | nil =>
    rw [List.nil_append, List.nil_append, replacePage_pat]
  | cons x a' ih =>
    have ha' : containsPage a' = false := containsPage_tail x a' ha
    have htail : replacePage r (a' ++ '{' :: 'p' :: 'a' :: 'g' :: 'e' :: '}' :: b)
        = a' ++ (r ++ replacePage r b) := ih ha'
    by_cases hx : x = '{'
    · subst hx
      rcases a' with _ | ⟨y1, _ | ⟨y2, _ | ⟨y3, _ | ⟨y4, a5⟩⟩⟩⟩
      · simp only [List.cons_append, List.nil_append] at htail ⊢
        rw [replacePage_cons6, if_neg (by rintro ⟨-, h, -⟩; exact absurd h (by decide)), htail]
      · simp only [List.cons_append, List.nil_append] at htail ⊢
        rw [replacePage_cons6, if_neg (by rintro ⟨-, -, h, -⟩; exact absurd h (by decide)),
          htail]
      · simp only [List.cons_append, List.nil_append] at htail ⊢
        rw [replacePage_cons6, if_neg (by rintro ⟨-, -, -, h, -⟩; exact absurd h (by decide)),
          htail]
      · simp only [List.cons_append, List.nil_append] at htail ⊢
        rw [replacePage_cons6,
          if_neg (by rintro ⟨-, -, -, -, h, -⟩; exact absurd h (by decide)), htail]
      · rcases a5 with _ | ⟨z, a6⟩
        · simp only [List.cons_append, List.nil_append] at htail ⊢
          rw [replacePage_cons6,
            if_neg (by rintro ⟨-, -, -, -, -, h⟩; exact absurd h (by decide)), htail]
        · by_cases hcond : ('{' : Char) = '{' ∧ y1 = 'p' ∧ y2 = 'a' ∧ y3 = 'g' ∧ y4 = 'e' ∧
              z = '}'
          · exfalso
            simp only [containsPage] at ha
            rw [if_pos ⟨trivial, hcond.2⟩] at ha
            exact absurd ha (by simp)
          · simp only [List.cons_append, List.nil_append] at htail ⊢
            rw [replacePage_cons6, if_neg hcond, htail]
    · rw [List.cons_append, replacePage_cons_ne r x _ hx, htail, List.cons_append]

lemma data_mk (l : List Char) : (String.mk l).data = l := rfl

/-- C4 counterexample: the template "http://x/?page=abc" carries an existing
page= query parameter (value "abc"), so the claim's rule 2 demands its value
be replaced, giving "http://x/?page=5"; the code's regex requires a digit
value, does not match, and rule 3 appends instead. -/
theorem c4_counterexample :
    build_url_from_template "http://x/?page=abc" 5 = "http://x/?page=abc&page=5"
    ∧ build_url_from_template "http://x/?page=abc" 5 ≠ "http://x/?page=5" :=
  ⟨by decide, by decide⟩

/-- C4 (amended): exactly one rule applies in priority order, always
producing a string — placeholder substitution if the literal token occurs;
else, if PAGE_REGEX ([?&]page=<digits>) matches, the regex substitution of
its first match; else the append of page=<n> with '&' when '?' already
occurs in the template and '?' otherwise.  (A page= parameter with an empty
or non-numeric value is not recognised by rule 2 and falls to rule 3.) -/
theorem c4_url_builder (template : String) (n : Nat) :
    (containsPage template.data = true →
        build_url_from_template template n =
          String.mk (replacePage (toString n).data template.data))
    ∧ (containsPage template.data = false →
        ∀ l, subPageParam n template.data = some l →
          build_url_from_template template n = String.mk l)
    ∧ (containsPage template.data = false → hasParam template.data = false →
        build_url_from_template template n =
          template ++ (if template.data.contains '?' then "&" else "?") ++
            "page=" ++ toString n) := by
  refine ⟨?_, ?_, ?_⟩
  · intro h
    simp only [build_url_from_template]
    rw [if_pos h]
  · intro h l hl
    simp only [build_url_from_template]
    rw [if_neg (by simp [h]), hl]
  · intro h1 h2
    have hnone : subPageParam n template.data = none := by
      have hs := subPageParam_isSome n template.data
      rw [h2] at hs
      rcases hopt : subPageParam n template.data with _ | l
      · rfl
      · rw [hopt] at hs
        simp at hs
    simp only [build_url_from_template]
    rw [if_neg (by simp [h1]), hnone]

/-- C4 witness: the three documented examples, one per rule — append with
'&', replacement of the existing numeric page parameter, and placeholder
substitution. -/
theorem c4_url_builder_witness :
    build_url_from_template "http://x/?a=1" 3 = "http://x/?a=1&page=3"
    ∧ build_url_from_template "http://x/?page=2" 5 = "http://x/?page=5"
    ∧ build_url_from_template "http://x/\x7bpage\x7d.html" 2 = "http://x/2.html" := by
  refine ⟨?_, ?_, ?_⟩
  · have h := (c4_url_builder "http://x/?a=1" 3).2.2 (by decide) (by decide)
    exact h.trans (by decide)
  · have h := (c4_url_builder "http://x/?page=2" 5).2.1 (by decide)
      ("http://x/?page=5".data) (by decide)
    exact h.trans (by decide)
  · have h := (c4_url_builder "http://x/\x7bpage\x7d.html" 2).1 (by decide)
    exact h.trans (by decide)

/-- C9: when the literal placeholder occurs, the builder substitutes the page
number for EVERY occurrence (the first occurrence is replaced and the
replacement recurses over the remainder); when rule 2 applies, only the
FIRST ([?&])page=<digits> match is rewritten and the rest of the template —
later page= parameters included — is copied unchanged. -/
theorem c9_replace_all_vs_first (n : Nat) :
    (∀ a b : List Char, containsPage a = false →
        build_url_from_template
            (String.mk (a ++ '{' :: 'p' :: 'a' :: 'g' :: 'e' :: '}' :: b)) n
          = String.mk (a ++ ((toString n).data ++ replacePage (toString n).data b)))
    ∧ (∀ (a : List Char) (c d : Char) (ds b : List Char),
        (c = '?' ∨ c = '&') → d.isDigit = true → (∀ x ∈ ds, x.isDigit = true) →
        (∀ x, b.head? = some x → x.isDigit = false) → hasParam a = false →
        containsPage (a ++ c :: 'p' :: 'a' :: 'g' :: 'e' :: '=' :: d :: (ds ++ b)) = false →
        build_url_from_template
            (String.mk (a ++ c :: 'p' :: 'a' :: 'g' :: 'e' :: '=' :: d :: (ds ++ b))) n
          = String.mk (a ++ c :: 'p' :: 'a' :: 'g' :: 'e' :: '=' :: ((toString n).data ++ b))) := by
  constructor
  · intro a b hfree
    simp only [build_url_from_template, data_mk]
    rw [if_pos (containsPage_append_pat a b), replacePage_append_pat _ a b hfree]
  · intro a c d ds b hc hd hds hb ha hfree
    simp only [build_url_from_template, data_mk]
    rw [if_neg (by simp [hfree]), subPageParam_append n a c d ds b hc hd hds hb ha]

/-- C9 witness: both placeholder occurrences in "x\x7bpage\x7d-\x7bpage\x7d"
become 7, while in "http://x/?page=2&page=9" only the first page parameter
becomes 5 and the later one stays 9. -/
theorem c9_replace_all_vs_first_witness :
    build_url_from_template "x\x7bpage\x7d-\x7bpage\x7d" 7 = "x7-7"
    ∧ build_url_from_template "http://x/?page=2&page=9" 5 = "http://x/?page=5&page=9" := by
  constructor
  · have h := (c9_replace_all_vs_first 7).1 ("x".data) ("-\x7bpage\x7d".data) (by decide)
    have e1 : String.mk ("x".data ++
        '{' :: 'p' :: 'a' :: 'g' :: 'e' :: '}' :: ("-\x7bpage\x7d".data))
        = "x\x7bpage\x7d-\x7bpage\x7d" := by decide
    rw [e1] at h
    exact h.trans (by decide)
  · have h := (c9_replace_all_vs_first 5).2 ("http://x/".data) '?' '2' [] ("&page=9".data)
      (Or.inl rfl) (by decide) (by decide) (by decide) (by decide) (by decide)
    have e1 : String.mk ("http://x/".data ++
        '?' :: 'p' :: 'a' :: 'g' :: 'e' :: '=' :: '2' :: (([] : List Char) ++ "&page=9".data))
        = "http://x/?page=2&page=9" := by decide
    rw [e1] at h
    exact h.trans (by decide)

lemma mem_addCols_left (acc cs : List String) (x : String) (h : x ∈ acc) :
    x ∈ addCols acc cs := by
  induction cs generalizing acc with
  | nil => exact h
  | cons c cs ih =>
    simp only [addCols, List.foldl_cons]
    by_cases hc : c ∈ acc
    · rw [if_pos hc]
      exact ih acc h
    · rw [if_neg hc]
      exact ih (acc ++ [c]) (List.mem_append_left _ h)

lemma mem_addCols_right (acc cs : List String) (x : String) (h : x ∈ cs) :
    x ∈ addCols acc cs := by
  induction cs generalizing acc with
  | nil => simp at h
  | cons c cs ih =>
    simp only [addCols, List.foldl_cons]
    rcases List.mem_cons.mp h with rfl | hx
    · by_cases hc : x ∈ acc
      · rw [if_pos hc]
        exact mem_addCols_left acc cs x hc
      · rw [if_neg hc]
        exact mem_addCols_left _ cs x (List.mem_append_right _ (by simp))
    · by_cases hc : c ∈ acc
      · rw [if_pos hc]
        exact ih acc hx
      · rw [if_neg hc]
        exact ih (acc ++ [c]) hx

lemma addCols_nodup (acc cs : List String) (h : acc.Nodup) : (addCols acc cs).Nodup := by
  induction cs generalizing acc with
  | nil => exact h
  | cons c cs ih =>
    simp only [addCols, List.foldl_cons]
    by_cases hc : c ∈ acc
    · rw [if_pos hc]
      exact ih acc h
    · rw [if_neg hc]
      refine ih (acc ++ [c]) ?_
      simp [List.nodup_append, h, hc]

lemma colsUnion_nodup (dfs : List DataFrame) : (colsUnion dfs).Nodup := by
  have haux : ∀ (l : List DataFrame) (acc : List String), acc.Nodup →
      (l.foldl (fun a x => addCols a x.columns) acc).Nodup := by
    intro l
    induction l with
    | nil => intro acc h; exact h
    | cons d l ih =>
      intro acc h
      exact ih (addCols acc d.columns) (addCols_nodup acc d.columns h)
  exact haux dfs [] List.nodup_nil

lemma mem_colsUnion (dfs : List DataFrame) (df : DataFrame) (hdf : df ∈ dfs)
    (c : String) (hc : c ∈ df.columns) : c ∈ colsUnion dfs := by
  have hkeep : ∀ (l : List DataFrame) (acc : List String), c ∈ acc →
      c ∈ l.foldl (fun a x => addCols a x.columns) acc := by
    intro l
    induction l with
    | nil => intro acc h; exact h
    | cons d l ih => intro acc h; exact ih _ (mem_addCols_left acc d.columns c h)
  have hins : ∀ (l : List DataFrame) (acc : List String), df ∈ l →
      c ∈ l.foldl (fun a x => addCols a x.columns) acc := by
    intro l
    induction l with
    | nil => intro acc h; simp at h
    | cons d l ih =>
      intro acc h
      rcases List.mem_cons.mp h with rfl | hmem
      · exact hkeep l _ (mem_addCols_right acc df.columns c hc)
      · exact ih _ hmem
  exact hins dfs [] hdf

lemma zip_self_map {β : Type} (l : List String) (g : String → β) :
    l.zip (l.map g) = l.map (fun a => (a, g a)) := by
  induction l with
  | nil => rfl
  | cons a l ih => simp [ih]

lemma map_fst_zip_take (src : List String) (row : List (Option String)) :
    (src.zip row).map Prod.fst = src.take row.length := by
  induction src generalizing row with
  | nil => simp
  | cons s src ih =>
    cases row with
    | nil => simp
    | cons v row => simp [ih]

lemma lookup_pairs_perm (L : List (String × Option String)) (tgt : List String)
    (hnd : (L.map Prod.fst).Nodup) (hsub : ∀ p ∈ L, p.1 ∈ tgt) (hndt : tgt.Nodup) :
    (tgt.filterMap (fun c => ((L.lookup c).join).map (fun v => (c, v)))).Perm
      (L.filterMap (fun p => p.2.map (fun v => (p.1, v)))) := by
  induction L generalizing tgt with
  | nil => simp
  | cons p L ih =>
    obtain ⟨s, v⟩ := p
    have hs : s ∈ tgt := hsub (s, v) (List.mem_cons_self _ _)
    have hperm : tgt.Perm (s :: tgt.erase s) := List.perm_cons_erase hs
    have hstep : (tgt.erase s).filterMap
          (fun c => ((((s, v) :: L).lookup c).join).map (fun v => (c, v)))
        = (tgt.erase s).filterMap (fun c => ((L.lookup c).join).map (fun v => (c, v))) := by
      apply List.filterMap_congr
      intro c hcmem
      have hcs : c ≠ s := by
        intro hcon
        subst hcon
        exact (List.Nodup.not_mem_erase hndt) hcmem
      rw [List.lookup_cons]
      simp [beq_false_of_ne hcs]
    have htail : ((tgt.erase s).filterMap
          (fun c => ((L.lookup c).join).map (fun v => (c, v)))).Perm
        (L.filterMap (fun p => p.2.map (fun v => (p.1, v)))) := by
      refine ih (tgt.erase s) ?_ ?_ ?_
      · exact (List.nodup_cons.mp hnd).2
      · intro q hq
        have hqs : q.1 ≠ s := by
          intro hcon
          have hmem : q.1 ∈ L.map Prod.fst := List.mem_map_of_mem Prod.fst hq
          rw [hcon] at hmem
          exact (List.nodup_cons.mp hnd).1 hmem
        exact (List.mem_erase_of_ne hqs).mpr (hsub q (List.mem_cons_of_mem _ hq))
      · exact List.Nodup.erase s hndt
    refine ((hperm.filterMap _).trans ?_)
    rcases v with _ | w
    · have hf1 : (fun c => Option.map (fun v => (c, v))
            (List.lookup c ((s, (none : Option String)) :: L)).join) s = none := by
        show Option.map (fun v => (s, v)) (List.lookup s ((s, none) :: L)).join = none
        rw [List.lookup_cons]
        simp
      have hcons1 := @List.filterMap_cons_none String (String × String)
        (fun c => Option.map (fun v => (c, v))
          (List.lookup c ((s, (none : Option String)) :: L)).join) s (tgt.erase s) hf1
      have hcons2 := @List.filterMap_cons_none (String × Option String) (String × String)
        (fun p => Option.map (fun v => (p.1, v)) p.2) (s, (none : Option String)) L rfl
      rw [hcons1, hcons2, hstep]
      exact htail
    · have hf1 : (fun c => Option.map (fun v => (c, v))
            (List.lookup c ((s, some w) :: L)).join) s = some (s, w) := by
        show Option.map (fun v => (s, v)) (List.lookup s ((s, some w) :: L)).join = some (s, w)
        rw [List.lookup_cons]
        simp
      have hcons1 := @List.filterMap_cons_some String (String × String)
        (fun c => Option.map (fun v => (c, v)) (List.lookup c ((s, some w) :: L)).join)
        s (tgt.erase s) (s, w) hf1
      have hcons2 := @List.filterMap_cons_some (String × Option String) (String × String)
        (fun p => Option.map (fun v => (p.1, v)) p.2) (s, some w) L (s, w) rfl
      rw [hcons1, hcons2, hstep]
      exact htail.cons (s, w)

lemma rowPairs_reindex (src tgt : List String) (row : List (Option String))
    (hnd : src.Nodup) (hsub : ∀ c ∈ src, c ∈ tgt) (hndt : tgt.Nodup) :
    rowPairs tgt (reindexRow src row tgt) = rowPairs src row := by
  unfold rowPairs reindexRow
  rw [Multiset.coe_eq_coe, zip_self_map tgt (fun c => ((src.zip row).lookup c).join),
    List.filterMap_map]
  have heq : tgt.filterMap ((fun p : String × Option String => p.2.map (fun v => (p.1, v))) ∘
        (fun c => (c, ((src.zip row).lookup c).join)))
      = tgt.filterMap (fun c => (((src.zip row).lookup c).join).map (fun v => (c, v))) :=
    List.filterMap_congr (fun a ha => rfl)
  rw [heq]
  have hk : ((src.zip row).map Prod.fst).Nodup := by
    rw [map_fst_zip_take]
    exact (List.take_sublist _ _).nodup hnd
  have hsb : ∀ p ∈ src.zip row, p.1 ∈ tgt := by
    intro p hp
    obtain ⟨a, b⟩ := p
    exact hsub a (List.of_mem_zip hp).1
  exact lookup_pairs_perm (src.zip row) tgt hk hsb hndt

lemma concatDF_records (d : DataFrame) (ds : List DataFrame)
    (hnd : ∀ x ∈ d :: ds, x.columns.Nodup) :
    (concatDF (d :: ds)).rows.map (rowPairs (concatDF (d :: ds)).columns)
      = ((d :: ds).map (fun x => x.rows.map (rowPairs x.columns))).flatten := by
  by_cases hall : ∀ x ∈ ds, x.columns = d.columns
  · simp only [concatDF]
    rw [if_pos hall]
    simp only [List.map_flatten, List.map_map]
    congr 1
    apply List.map_congr_left
    intro x hx
    rcases List.mem_cons.mp hx with rfl | hx'
    · rfl
    · show x.rows.map (rowPairs d.columns) = x.rows.map (rowPairs x.columns)
      rw [hall x hx']
  · simp only [concatDF]
    rw [if_neg hall]
    rw [List.map_flatMap, List.flatMap_def]
    congr 1
    apply List.map_congr_left
    intro x hx
    rw [List.map_map]
    apply List.map_congr_left
    intro row hrow
    show rowPairs (colsUnion (d :: ds)) (reindexRow x.columns row (colsUnion (d :: ds)))
      = rowPairs x.columns row
    exact rowPairs_reindex x.columns (colsUnion (d :: ds)) row (hnd x hx)
      (fun c hc => mem_colsUnion (d :: ds) x hx c hc) (colsUnion_nodup (d :: ds))

lemma concatDF_length (d : DataFrame) (ds : List DataFrame) :
    (concatDF (d :: ds)).rows.length = ((d :: ds).map (fun x => x.rows.length)).sum := by
  by_cases hall : ∀ x ∈ ds, x.columns = d.columns
  · simp only [concatDF]
    rw [if_pos hall]
    simp only [List.length_flatten, List.map_map]
    congr 1
  · simp only [concatDF]
    rw [if_neg hall]
    simp only [List.length_flatMap, List.map_map]
    congr 1
    apply List.map_congr_left
    intro x hx
    simp [Function.comp]

lemma scrape_pages_records (fetch : String → Option String)
    (select : String → String → List Table) (template : String) (pages : List Nat)
    (spec : TableSpec) (concurrency : Nat) (order : List Nat)
    (hnd : ∀ df ∈ pageResults fetch select template spec order, df.columns.Nodup) :
    (scrape_pages fetch select template pages spec concurrency order).rows.map
        (rowPairs (scrape_pages fetch select template pages spec concurrency order).columns)
      = ((pageResults fetch select template spec order).map
          (fun x => x.rows.map (rowPairs x.columns))).flatten := by
  rcases hres : pageResults fetch select template spec order with _ | ⟨d, ds⟩
  · simp [scrape_pages, hres, emptyDF]
  · have hsp : scrape_pages fetch select template pages spec concurrency order
        = concatDF (d :: ds) := by
      simp only [scrape_pages]
      rw [hres, if_neg (by simp)]
    rw [hsp]
    rw [hres] at hnd
    exact concatDF_records d ds hnd

lemma scrape_pages_length (fetch : String → Option String)
    (select : String → String → List Table) (template : String) (pages : List Nat)
    (spec : TableSpec) (concurrency : Nat) (order : List Nat) :
    (scrape_pages fetch select template pages spec concurrency order).rows.length
      = ((pageResults fetch select template spec order).map (fun x => x.rows.length)).sum := by
  rcases hres : pageResults fetch select template spec order with _ | ⟨d, ds⟩
  · simp [scrape_pages, hres, emptyDF]
  · have hsp : scrape_pages fetch select template pages spec concurrency order
        = concatDF (d :: ds) := by
      simp only [scrape_pages]
      rw [hres, if_neg (by simp)]
    rw [hsp]
    exact concatDF_length d ds

/-- C2: a page whose fetch, table location or extraction fails contributes no
Page Result; the aggregate's rows — each read as the multiset of its
(column label, value) cells — are exactly the concatenation of the
successful pages' rows in completion order, each page's internal row order
preserved; its row count is the sum of the pages' row counts; and with no
successful page the aggregate is the explicitly empty frame.  (The
no-duplicate-labels hypothesis covers pd.concat's reindexing, which raises
on duplicated labels.) -/
theorem c2_aggregate_rows (fetch : String → Option String)
    (select : String → String → List Table) (template : String) (pages : List Nat)
    (spec : TableSpec) (concurrency : Nat) (order : List Nat)
    (hnd : ∀ df ∈ pageResults fetch select template spec order, df.columns.Nodup) :
    (∀ p rest, scrape_one_page fetch select (build_url_from_template template p) spec = none →
        pageResults fetch select template spec (p :: rest)
          = pageResults fetch select template spec rest)
    ∧ (scrape_pages fetch select template pages spec concurrency order).rows.map
          (rowPairs (scrape_pages fetch select template pages spec concurrency order).columns)
        = ((pageResults fetch select template spec order).map
            (fun x => x.rows.map (rowPairs x.columns))).flatten
    ∧ (scrape_pages fetch select template pages spec concurrency order).rows.length
        = ((pageResults fetch select template spec order).map (fun x => x.rows.length)).sum
    ∧ (pageResults fetch select template spec order = [] →
        scrape_pages fetch select template pages spec concurrency order = emptyDF) := by
  refine ⟨?_, scrape_pages_records fetch select template pages spec concurrency order hnd,
    scrape_pages_length fetch select template pages spec concurrency order, ?_⟩
  · intro p rest hfail
    simp [pageResults, hfail]
  · intro hres
    simp [scrape_pages, hres]

def exFetchC2 : String → Option String := fun u => if u = "t?page=2" then none else some u

def exSelectC2 : String → String → List Table := fun html _ =>
  if html = "t?page=1" then
    [[[Cell.mk CellTag.th "a"], [Cell.mk CellTag.td "1"], [Cell.mk CellTag.td "2"]]]
  else [[[Cell.mk CellTag.th "a"], [Cell.mk CellTag.td "3"], [Cell.mk CellTag.td "4"]]]

/-- C2 witness: three pages, page 2's fetch fails, pages 1 and 3 parse two
rows each — the aggregate has exactly 4 rows, the sum of the page row
counts. -/
theorem c2_aggregate_rows_witness :
    (∀ df ∈ pageResults exFetchC2 exSelectC2 "t" cxSpec [1, 2, 3], df.columns.Nodup)
    ∧ (scrape_pages exFetchC2 exSelectC2 "t" [1, 2, 3] cxSpec 10 [1, 2, 3]).rows.length
        = ((pageResults exFetchC2 exSelectC2 "t" cxSpec [1, 2, 3]).map
            (fun x => x.rows.length)).sum
    ∧ (scrape_pages exFetchC2 exSelectC2 "t" [1, 2, 3] cxSpec 10 [1, 2, 3]).rows.length = 4 :=
  ⟨by decide,
    (c2_aggregate_rows exFetchC2 exSelectC2 "t" [1, 2, 3] cxSpec 10 [1, 2, 3]
      (by decide)).2.2.1,
    by decide⟩

/-- C8: against a stable fetch and selector, two runs of the same request —
two completion orders, each a permutation of the same page list — produce
aggregates whose rows, read as multisets of (column label, value) cells,
form identical multisets, although their order (and the aggregate column
order) may differ. -/
theorem c8_idempotent_row_multiset (fetch : String → Option String)
    (select : String → String → List Table) (template : String) (pages : List Nat)
    (spec : TableSpec) (concurrency : Nat) (o₁ o₂ : List Nat)
    (h₁ : o₁.Perm pages) (h₂ : o₂.Perm pages)
    (hnd : ∀ df ∈ pageResults fetch select template spec o₁, df.columns.Nodup) :
    (↑((scrape_pages fetch select template pages spec concurrency o₁).rows.map
          (rowPairs (scrape_pages fetch select template pages spec concurrency o₁).columns))
        : Multiset (Multiset (String × String)))
      = ↑((scrape_pages fetch select template pages spec concurrency o₂).rows.map
          (rowPairs (scrape_pages fetch select template pages spec concurrency o₂).columns)) := by
  have hperm : o₁.Perm o₂ := h₁.trans h₂.symm
  have hpr : (pageResults fetch select template spec o₁).Perm
      (pageResults fetch select template spec o₂) := hperm.filterMap _
  have hnd₂ : ∀ df ∈ pageResults fetch select template spec o₂, df.columns.Nodup := by
    intro df hdf
    exact hnd df (hpr.mem_iff.mpr hdf)
  rw [scrape_pages_records fetch select template pages spec concurrency o₁ hnd,
    scrape_pages_records fetch select template pages spec concurrency o₂ hnd₂,
    Multiset.coe_eq_coe]
  exact (hpr.map _).flatten

/-- C8 witness: the three-page scenario with completion orders [1,2,3] and
[3,2,1] — the two aggregates carry the same multiset of labelled rows. -/
theorem c8_idempotent_row_multiset_witness :
    (([1, 2, 3] : List Nat).Perm [1, 2, 3] ∧ ([3, 2, 1] : List Nat).Perm [1, 2, 3])
    ∧ (↑((scrape_pages exFetchC2 exSelectC2 "t" [1, 2, 3] cxSpec 10 [1, 2, 3]).rows.map
          (rowPairs (scrape_pages exFetchC2 exSelectC2 "t" [1, 2, 3] cxSpec 10
            [1, 2, 3]).columns)) : Multiset (Multiset (String × String)))
        = ↑((scrape_pages exFetchC2 exSelectC2 "t" [1, 2, 3] cxSpec 10 [3, 2, 1]).rows.map
            (rowPairs (scrape_pages exFetchC2 exSelectC2 "t" [1, 2, 3] cxSpec 10
              [3, 2, 1]).columns)) :=
  ⟨⟨by decide, by decide⟩,
    c8_idempotent_row_multiset exFetchC2 exSelectC2 "t" [1, 2, 3] cxSpec 10 [1, 2, 3]
      [3, 2, 1] (by decide) (by decide) (by decide)⟩
